import Mathlib

/-!
Verification of `game_of_life.py` (militantwalrus/life).

The program stores a generation as a flat list of booleans (`self.grid`)
of `size` cells, interpreted as a `dim x dim` row-major square where
`dim = int(math.sqrt(size))`.  We embed the grid as `List Bool`, machine
integers as `Nat`/`Int`, and Python list reads `self.grid[p]` as
`List.getD grid p false` (the in-bounds proofs are established separately).
-/

set_option autoImplicit false

namespace Life

/-- Embedding of `GameOfLife.count_neighbors` (game_of_life.py lines 83-118).
Returns the list of the 8 neighbor values gathered around flat index `idx`:
three from the row above (or `[False, False, False]` when `idx - dim < 0`),
the cells one back and one in front, and three from the row below (or
`[False, False, False]` when `idx + dim >= size`).  Column-edge guards
(`p % dim == 0` on the left, `(p + 1) % dim == 0` on the right) replace the
read with `False`, exactly as in the source. -/
def count_neighbors (grid : List Bool) (dim size idx : Nat) : List Bool :=
  (if idx < dim then
    [false, false, false]
  else
    let p := idx - dim
    [if p % dim = 0 then false else grid.getD (p - 1) false,
     grid.getD p false,
     if (p + 1) % dim = 0 then false else grid.getD (p + 1) false])
  ++ [if idx % dim = 0 then false else grid.getD (idx - 1) false,
      if (idx + 1) % dim = 0 then false else grid.getD (idx + 1) false]
  ++ (if size ≤ idx + dim then
    [false, false, false]
  else
    let p := idx + dim
    [if p % dim = 0 then false else grid.getD (p - 1) false,
     grid.getD p false,
     if (p + 1) % dim = 0 then false else grid.getD (p + 1) false])

/-- Embedding of `GameOfLife.assess_neighbors` (lines 122-132): count the
`True` entries among the gathered neighbors and apply the four Life rules. -/
def assess_neighbors (grid : List Bool) (dim size idx : Nat) : Bool :=
  let c := (count_neighbors grid dim size idx).count true
  if c ≠ 2 ∧ c ≠ 3 then false
  else if grid.getD idx false then decide (c = 2 ∨ c = 3)
  else decide (c = 3)

/-- Embedding of `GameOfLife.sweep` (lines 135-138): build the result buffer
`res` by assessing every index of the current grid; `play` (line 174) then
replaces `grid` with a copy of `res`, so `sweep` is the one-step transition. -/
def sweep (grid : List Bool) (dim size : Nat) : List Bool :=
  (List.range grid.length).map (fun i => assess_neighbors grid dim size i)

/-- Value of the cell at 2-D coordinates `(r, c)` of a `dim x dim` row-major
grid, with every coordinate outside the square reading as dead.  This is the
specification-side view of the grid: no index arithmetic, hence no
possibility of wrapping to the opposite edge. -/
def alive2d (grid : List Bool) (dim : Nat) (r c : Int) : Bool :=
  if 0 ≤ r ∧ r < (dim : Int) ∧ 0 ≤ c ∧ c < (dim : Int) then
    grid.getD (r * (dim : Int) + c).toNat false
  else false

/-- Specification-side neighborhood of `idx`: the values of the 8 cells at
row/column offsets in `{-1,0,1} x {-1,0,1}` minus the center, each read
through `alive2d` (off-grid positions dead, no wrap-around). -/
def neighborSpec (grid : List Bool) (dim idx : Nat) : List Bool :=
  let r : Int := (idx / dim : Nat)
  let c : Int := (idx % dim : Nat)
  [alive2d grid dim (r - 1) (c - 1), alive2d grid dim (r - 1) c,
   alive2d grid dim (r - 1) (c + 1),
   alive2d grid dim r (c - 1), alive2d grid dim r (c + 1),
   alive2d grid dim (r + 1) (c - 1), alive2d grid dim (r + 1) c,
   alive2d grid dim (r + 1) (c + 1)]

/-- The next-state decision table exactly as the specification words it:
dead when the neighbor count is not in `{2,3}`; alive when the cell is alive
and the count is in `{2,3}`; alive when the cell is dead and the count is
exactly 3; dead in all other cases. -/
def nextStateSpec (alive : Bool) (c : Nat) : Bool :=
  (alive && (c == 2 || c == 3)) || (!alive && c == 3)

/-- The flat indices at which `count_neighbors` reads `self.grid`, guard for
guard as in lines 95-116 of the source: the three row-above reads are taken
only when `idx - dim >= 0`, the three row-below reads only when
`idx + dim < size`, and each column-edge guard suppresses its read. -/
def neighborReads (dim size idx : Nat) : List Nat :=
  (if idx < dim then []
   else
     let p := idx - dim
     (if p % dim = 0 then [] else [p - 1]) ++ [p] ++
       (if (p + 1) % dim = 0 then [] else [p + 1]))
  ++ (if idx % dim = 0 then [] else [idx - 1])
  ++ (if (idx + 1) % dim = 0 then [] else [idx + 1])
  ++ (if size ≤ idx + dim then []
   else
     let p := idx + dim
     (if p % dim = 0 then [] else [p - 1]) ++ [p] ++
       (if (p + 1) % dim = 0 then [] else [p + 1]))

set_option linter.unusedVariables false in
/-- Embedding of the `while len(words) < self.size: words += words` loop of
`initialize_by_gods_word` (lines 76-77): repeatedly double the byte list
until it is at least `size` long.  The Python loop never terminates on an
empty source, so the embedding stops doubling there. -/
def extendWords (words : List Nat) (size : Nat) : List Nat :=
  if h : words.length < size ∧ words ≠ [] then extendWords (words ++ words) size
  else words
termination_by size - words.length
decreasing_by
  rcases h with ⟨hlt, hne⟩
  have : 0 < words.length := List.length_pos.mpr hne
  simp only [List.length_append]
  omega

/-- Cells appended by `initialize_by_gods_word` (lines 79-80): for each of
the first `size` bytes of the extended source, alive iff the byte value is
odd (`bool(ord(words[i]) % 2)`). -/
def gods_word_cells (words : List Nat) (size : Nat) : List Bool :=
  (List.range size).map (fun i => decide ((extendWords words size).getD i 0 % 2 = 1))

/-- Embedding of `GameOfLife.initialize` (lines 62-68).  `self.grid` starts
empty; when `self.god` is set the method first appends the `size` parity
cells of `initialize_by_gods_word`, and then — there is no early return —
falls through to the random pass and appends `size` further cells drawn from
`random.random() >= 0.5`.  The pseudo-random source is modelled as an oracle
`rand : Nat → Bool` giving the result of the `i`-th draw's comparison. -/
def initGrid (god : Bool) (words : List Nat) (rand : Nat → Bool) (size : Nat) :
    List Bool :=
  (if god then gods_word_cells words size else [])
    ++ (List.range size).map rand

/-- Outcome of the `__main__` sanity check and the statement that follows it
(lines 201-207): `warned` records whether the square-root warning is written
to stderr (`math.sqrt(size)` is not an integer, embedded via `Nat.sqrt`),
and `simulated` records whether `GameOfLife(opts)` is constructed and run —
which the source does unconditionally, warning or not. -/
structure MainTrace where
  warned : Bool
  simulated : Bool
deriving DecidableEq, Repr

/-- Embedding of the `__main__` tail (lines 201-207): warn iff `size` has no
integer square root, then run the game regardless. -/
def mainCheck (size : Nat) : MainTrace :=
  { warned := decide (Nat.sqrt size * Nat.sqrt size ≠ size), simulated := true }

/-- Result of a terminated `GameOfLife.play` run (lines 161-174): how many
frames `display` drew, the final value of the `generations` counter, whether
the `"The Game of Life is Over"` message was printed, and the process exit
status (`sys.exit()` with no argument, i.e. success). -/
structure PlayResult where
  renders : Nat
  finalGens : Nat
  endMessage : Bool
  exitCode : Nat
deriving DecidableEq, Repr

/-- Embedding of the `while True` loop body of `play` (lines 164-174) for a
positive iteration limit: display the grid (counted in `renders`), increment
`generations`, exit once `generations > limit`, otherwise sweep and replace
the grid with the result.  A limit of `0` is falsy in Python (`if
self.iterations and ...`) and the loop never exits, so only positive limits
are modelled. -/
def playLoop (grid : List Bool) (dim size limit gens renders : Nat) : PlayResult :=
  if gens + 1 > limit then
    { renders := renders + 1, finalGens := gens + 1, endMessage := true, exitCode := 0 }
  else playLoop (sweep grid dim size) dim size limit (gens + 1) (renders + 1)
termination_by limit - gens
decreasing_by omega

/-- Embedding of `play` entry (lines 161-163): `generations = 0`, no frame
drawn yet, then the loop runs. -/
def play (grid : List Bool) (dim size limit : Nat) : PlayResult :=
  playLoop grid dim size limit 0 0

/-- Grid whose only alive cells are the 2x2 block with rows `r0, r0+1` and
columns `c0, c0+1`, on a `dim x dim` row-major grid of `dim * dim` cells. -/
def blockGrid (dim r0 c0 : Nat) : List Bool :=
  (List.range (dim * dim)).map (fun i =>
    decide (r0 ≤ i / dim ∧ i / dim ≤ r0 + 1 ∧ c0 ≤ i % dim ∧ i % dim ≤ c0 + 1))

/-- Grid whose only alive cells are the horizontal 3-cell line in row `r0`,
columns `c0, c0+1, c0+2` (a blinker in its horizontal phase). -/
def hBlinkerGrid (dim r0 c0 : Nat) : List Bool :=
  (List.range (dim * dim)).map (fun i =>
    decide (i / dim = r0 ∧ c0 ≤ i % dim ∧ i % dim ≤ c0 + 2))

/-- Grid whose only alive cells are the vertical 3-cell line in column
`c0 + 1`, rows `r0 - 1, r0, r0 + 1` (the vertical phase of the blinker
whose horizontal phase sits in row `r0`, columns `c0..c0+2`). -/
def vBlinkerGrid (dim r0 c0 : Nat) : List Bool :=
  (List.range (dim * dim)).map (fun i =>
    decide (i % dim = c0 + 1 ∧ r0 - 1 ≤ i / dim ∧ i / dim ≤ r0 + 1))

/-! ### Refinement: `count_neighbors` computes the 2-D neighborhood -/

theorem alive2d_neg (grid : List Bool) (dim : Nat) (r c : Int)
    (h : ¬(0 ≤ r ∧ r < (dim : Int) ∧ 0 ≤ c ∧ c < (dim : Int))) :
    alive2d grid dim r c = false := by
  simp only [alive2d, if_neg h]

theorem alive2d_pos (grid : List Bool) (dim : Nat) (r c : Int) (n : Nat)
    (h : 0 ≤ r ∧ r < (dim : Int) ∧ 0 ≤ c ∧ c < (dim : Int))
    (hn : r * (dim : Int) + c = (n : Int)) :
    alive2d grid dim r c = grid.getD n false := by
  simp only [alive2d, if_pos h, hn, Int.toNat_natCast]

theorem rowMod (dim a b : Nat) (hb : b < dim) : (a * dim + b) % dim = b := by
  rw [Nat.add_comm, Nat.add_mul_mod_self_right]
  exact Nat.mod_eq_of_lt hb

theorem ite_triple {c : Prop} [Decidable c] (a1 a2 a3 b1 b2 b3 : Bool) :
    (if c then ([a1, a2, a3] : List Bool) else [b1, b2, b3])
    = [if c then a1 else b1, if c then a2 else b2, if c then a3 else b3] := by
  split_ifs <;> rfl

theorem nbUL (grid : List Bool) (dim q r : Nat) (hr : r < dim) (hq : q < dim) :
    (if q * dim + r < dim then false
     else if (q * dim + r - dim) % dim = 0 then false
     else grid.getD (q * dim + r - dim - 1) false)
    = alive2d grid dim ((q : Int) - 1) ((r : Int) - 1) := by
  by_cases hq0 : q = 0
  · subst hq0
    rw [if_pos (by omega)]
    symm
    exact alive2d_neg _ _ _ _ (by omega)
  · obtain ⟨q', rfl⟩ : ∃ q', q = q' + 1 := ⟨q - 1, by omega⟩
    have hge : dim ≤ (q' + 1) * dim := Nat.le_mul_of_pos_left dim (Nat.succ_pos q')
    rw [if_neg (by omega)]
    have ep : (q' + 1) * dim + r - dim = q' * dim + r := by
      rw [Nat.succ_mul]; omega
    rw [ep, rowMod dim q' r hr]
    by_cases hr0 : r = 0
    · subst hr0
      rw [if_pos rfl]
      symm
      exact alive2d_neg _ _ _ _ (by omega)
    · obtain ⟨r', rfl⟩ : ∃ r', r = r' + 1 := ⟨r - 1, by omega⟩
      rw [if_neg (by omega)]
      symm
      exact alive2d_pos _ _ _ _ (q' * dim + r') (by omega)
        (by push_cast; ring)

theorem nbUC (grid : List Bool) (dim q r : Nat) (hr : r < dim) (hq : q < dim) :
    (if q * dim + r < dim then false else grid.getD (q * dim + r - dim) false)
    = alive2d grid dim ((q : Int) - 1) (r : Int) := by
  by_cases hq0 : q = 0
  · subst hq0
    rw [if_pos (by omega)]
    symm
    exact alive2d_neg _ _ _ _ (by omega)
  · obtain ⟨q', rfl⟩ : ∃ q', q = q' + 1 := ⟨q - 1, by omega⟩
    have hge : dim ≤ (q' + 1) * dim := Nat.le_mul_of_pos_left dim (Nat.succ_pos q')
    rw [if_neg (by omega)]
    have ep : (q' + 1) * dim + r - dim = q' * dim + r := by
      rw [Nat.succ_mul]; omega
    rw [ep]
    symm
    exact alive2d_pos _ _ _ _ (q' * dim + r) (by omega)
      (by push_cast; ring)

theorem nbUR (grid : List Bool) (dim q r : Nat) (hr : r < dim) (hq : q < dim) :
    (if q * dim + r < dim then false
     else if (q * dim + r - dim + 1) % dim = 0 then false
     else grid.getD (q * dim + r - dim + 1) false)
    = alive2d grid dim ((q : Int) - 1) ((r : Int) + 1) := by
  by_cases hq0 : q = 0
  · subst hq0
    rw [if_pos (by omega)]
    symm
    exact alive2d_neg _ _ _ _ (by omega)
  · obtain ⟨q', rfl⟩ : ∃ q', q = q' + 1 := ⟨q - 1, by omega⟩
    have hge : dim ≤ (q' + 1) * dim := Nat.le_mul_of_pos_left dim (Nat.succ_pos q')
    rw [if_neg (by omega)]
    have ep : (q' + 1) * dim + r - dim = q' * dim + r := by
      rw [Nat.succ_mul]; omega
    rw [ep]
    by_cases hrd : r + 1 = dim
    · have e2 : q' * dim + r + 1 = (q' + 1) * dim := by rw [Nat.succ_mul]; omega
      rw [e2, Nat.mul_mod_left, if_pos rfl]
      symm
      exact alive2d_neg _ _ _ _ (by omega)
    · rw [Nat.add_assoc, rowMod dim q' (r + 1) (by omega), if_neg (by omega)]
      symm
      exact alive2d_pos _ _ _ _ (q' * dim + (r + 1)) (by omega)
        (by push_cast; ring)

theorem nbML (grid : List Bool) (dim q r : Nat) (hr : r < dim) (hq : q < dim) :
    (if r = 0 then false else grid.getD (q * dim + r - 1) false)
    = alive2d grid dim (q : Int) ((r : Int) - 1) := by
  by_cases hr0 : r = 0
  · subst hr0
    rw [if_pos rfl]
    symm
    exact alive2d_neg _ _ _ _ (by omega)
  · obtain ⟨r', rfl⟩ : ∃ r', r = r' + 1 := ⟨r - 1, by omega⟩
    rw [if_neg (by omega)]
    symm
    exact alive2d_pos _ _ _ _ (q * dim + r') (by omega)
      (by push_cast; ring)

theorem nbMR (grid : List Bool) (dim q r : Nat) (hr : r < dim) (hq : q < dim) :
    (if (q * dim + r + 1) % dim = 0 then false
     else grid.getD (q * dim + r + 1) false)
    = alive2d grid dim (q : Int) ((r : Int) + 1) := by
  rw [Nat.add_assoc]
  by_cases hrd : r + 1 = dim
  · have e2 : q * dim + (r + 1) = (q + 1) * dim := by rw [Nat.succ_mul]; omega
    rw [e2, Nat.mul_mod_left, if_pos rfl]
    symm
    exact alive2d_neg _ _ _ _ (by omega)
  · rw [rowMod dim q (r + 1) (by omega), if_neg (by omega)]
    symm
    exact alive2d_pos _ _ _ _ (q * dim + (r + 1)) (by omega)
      (by push_cast; ring)

theorem nbDL (grid : List Bool) (dim q r : Nat) (hr : r < dim) (hq : q < dim) :
    (if dim * dim ≤ q * dim + r + dim then false
     else if (q * dim + r + dim) % dim = 0 then false
     else grid.getD (q * dim + r + dim - 1) false)
    = alive2d grid dim ((q : Int) + 1) ((r : Int) - 1) := by
  have e1 : q * dim + dim = (q + 1) * dim := (Nat.succ_mul q dim).symm
  by_cases hqd : q + 1 = dim
  · have e2 : (q + 1) * dim = dim * dim := by rw [hqd]
    rw [if_pos (by omega)]
    symm
    exact alive2d_neg _ _ _ _ (by omega)
  · have h2 : (q + 2) * dim ≤ dim * dim := Nat.mul_le_mul_right dim (by omega)
    have e3 : (q + 2) * dim = q * dim + dim + dim := by
      rw [Nat.succ_mul, Nat.succ_mul]
    rw [if_neg (by omega)]
    have ep : q * dim + r + dim = (q + 1) * dim + r := by
      rw [Nat.succ_mul]; omega
    rw [ep, rowMod dim (q + 1) r hr]
    by_cases hr0 : r = 0
    · subst hr0
      rw [if_pos rfl]
      symm
      exact alive2d_neg _ _ _ _ (by omega)
    · obtain ⟨r', rfl⟩ : ∃ r', r = r' + 1 := ⟨r - 1, by omega⟩
      rw [if_neg (by omega)]
      symm
      exact alive2d_pos _ _ _ _ ((q + 1) * dim + r') (by omega)
        (by push_cast; ring)

theorem nbDC (grid : List Bool) (dim q r : Nat) (hr : r < dim) (hq : q < dim) :
    (if dim * dim ≤ q * dim + r + dim then false
     else grid.getD (q * dim + r + dim) false)
    = alive2d grid dim ((q : Int) + 1) (r : Int) := by
  have e1 : q * dim + dim = (q + 1) * dim := (Nat.succ_mul q dim).symm
  by_cases hqd : q + 1 = dim
  · have e2 : (q + 1) * dim = dim * dim := by rw [hqd]
    rw [if_pos (by omega)]
    symm
    exact alive2d_neg _ _ _ _ (by omega)
  · have h2 : (q + 2) * dim ≤ dim * dim := Nat.mul_le_mul_right dim (by omega)
    have e3 : (q + 2) * dim = q * dim + dim + dim := by
      rw [Nat.succ_mul, Nat.succ_mul]
    rw [if_neg (by omega)]
    have ep : q * dim + r + dim = (q + 1) * dim + r := by
      rw [Nat.succ_mul]; omega
    rw [ep]
    symm
    exact alive2d_pos _ _ _ _ ((q + 1) * dim + r) (by omega)
      (by push_cast; ring)

theorem nbDR (grid : List Bool) (dim q r : Nat) (hr : r < dim) (hq : q < dim) :
    (if dim * dim ≤ q * dim + r + dim then false
     else if (q * dim + r + dim + 1) % dim = 0 then false
     else grid.getD (q * dim + r + dim + 1) false)
    = alive2d grid dim ((q : Int) + 1) ((r : Int) + 1) := by
  have e1 : q * dim + dim = (q + 1) * dim := (Nat.succ_mul q dim).symm
  by_cases hqd : q + 1 = dim
  · have e2 : (q + 1) * dim = dim * dim := by rw [hqd]
    rw [if_pos (by omega)]
    symm
    exact alive2d_neg _ _ _ _ (by omega)
  · have h2 : (q + 2) * dim ≤ dim * dim := Nat.mul_le_mul_right dim (by omega)
    have e3 : (q + 2) * dim = q * dim + dim + dim := by
      rw [Nat.succ_mul, Nat.succ_mul]
    rw [if_neg (by omega)]
    have ep : q * dim + r + dim = (q + 1) * dim + r := by
      rw [Nat.succ_mul]; omega
    rw [ep, Nat.add_assoc]
    by_cases hrd : r + 1 = dim
    · have e4 : (q + 1) * dim + (r + 1) = (q + 2) * dim := by
        rw [Nat.succ_mul (q + 1)]; omega
      rw [e4, Nat.mul_mod_left, if_pos rfl]
      symm
      exact alive2d_neg _ _ _ _ (by omega)
    · rw [rowMod dim (q + 1) (r + 1) (by omega), if_neg (by omega)]
      symm
      exact alive2d_pos _ _ _ _ ((q + 1) * dim + (r + 1)) (by omega)
        (by push_cast; ring)

/-- Refinement: on a perfect-square grid, the neighbor list gathered by the
flat-index walk of `count_neighbors` is exactly the 2-D neighborhood
`neighborSpec` — off-grid positions (including would-be column wraps) are
dead, every in-grid neighbor is read at its true row-major position. -/
theorem count_neighbors_eq_spec (grid : List Bool) (dim size idx : Nat)
    (hdim : 1 ≤ dim) (hsize : size = dim * dim) (hidx : idx < size) :
    count_neighbors grid dim size idx = neighborSpec grid dim idx := by
  subst hsize
  obtain ⟨q, r, hr, rfl⟩ : ∃ q r, r < dim ∧ q * dim + r = idx :=
    ⟨idx / dim, idx % dim, Nat.mod_lt _ (by omega),
      by rw [Nat.mul_comm]; exact Nat.div_add_mod idx dim⟩
  have hq : q < dim := by
    by_contra hcon
    push_neg at hcon
    have := Nat.mul_le_mul_right dim hcon
    omega
  have hdiv : (q * dim + r) / dim = q := by
    rw [Nat.add_comm, Nat.add_mul_div_right _ _ (show 0 < dim by omega),
      Nat.div_eq_of_lt hr, Nat.zero_add]
  have hmod : (q * dim + r) % dim = r := by
    rw [Nat.add_comm, Nat.add_mul_mod_self_right]
    exact Nat.mod_eq_of_lt hr
  simp only [count_neighbors, neighborSpec, ite_triple, List.cons_append,
    List.nil_append, List.cons.injEq, and_true]
  rw [hdiv, hmod]
  exact ⟨nbUL grid dim q r hr hq, nbUC grid dim q r hr hq, nbUR grid dim q r hr hq,
    nbML grid dim q r hr hq, nbMR grid dim q r hr hq, nbDL grid dim q r hr hq,
    nbDC grid dim q r hr hq, nbDR grid dim q r hr hq⟩

/-! ### Helper lemmas for grids built from `List.range` -/

theorem rowDiv (dim a b : Nat) (hb : b < dim) : (a * dim + b) / dim = a := by
  rw [Nat.add_comm, Nat.add_mul_div_right _ _ (show 0 < dim by omega),
    Nat.div_eq_of_lt hb, Nat.zero_add]

theorem rowLt (dim a b : Nat) (ha : a < dim) (hb : b < dim) :
    a * dim + b < dim * dim := by
  have h1 : (a + 1) * dim ≤ dim * dim := Nat.mul_le_mul_right dim (by omega)
  have h2 : (a + 1) * dim = a * dim + dim := Nat.succ_mul a dim
  omega

theorem mapRange_getD (f : Nat → Bool) (n i : Nat) (h : i < n) :
    ((List.range n).map f).getD i false = f i := by
  simp [List.getD_eq_getElem?_getD, List.getElem?_map, List.getElem?_range, h]

theorem sweep_length (grid : List Bool) (dim size : Nat) :
    (sweep grid dim size).length = grid.length := by
  simp [sweep]

theorem sweep_getD (grid : List Bool) (dim size i : Nat) (h : i < grid.length) :
    (sweep grid dim size).getD i false = assess_neighbors grid dim size i :=
  mapRange_getD _ _ _ h

theorem count8 : ∀ a1 a2 a3 a4 a5 a6 a7 a8 : Bool,
    List.count true [a1, a2, a3, a4, a5, a6, a7, a8]
      = a1.toNat + a2.toNat + a3.toNat + a4.toNat
        + a5.toNat + a6.toNat + a7.toNat + a8.toNat := by
  decide

theorem toNat_decide (p : Prop) [Decidable p] :
    (decide p).toNat = if p then 1 else 0 := by
  by_cases h : p <;> simp [h]

theorem blockGrid_length (dim r0 c0 : Nat) :
    (blockGrid dim r0 c0).length = dim * dim := by
  simp [blockGrid]

theorem blockGrid_getD (dim r0 c0 a b : Nat) (ha : a < dim) (hb : b < dim) :
    (blockGrid dim r0 c0).getD (a * dim + b) false
      = decide (r0 ≤ a ∧ a ≤ r0 + 1 ∧ c0 ≤ b ∧ b ≤ c0 + 1) := by
  rw [blockGrid, mapRange_getD _ _ _ (rowLt dim a b ha hb),
    rowDiv dim a b hb, rowMod dim a b hb]

theorem alive2d_blockGrid (dim r0 c0 : Nat) (h1 : 1 ≤ r0) (h2 : r0 + 3 ≤ dim)
    (h3 : 1 ≤ c0) (h4 : c0 + 3 ≤ dim) (R C : Int) :
    alive2d (blockGrid dim r0 c0) dim R C
      = decide ((r0 : Int) ≤ R ∧ R ≤ r0 + 1 ∧ (c0 : Int) ≤ C ∧ C ≤ c0 + 1) := by
  by_cases hin : 0 ≤ R ∧ R < (dim : Int) ∧ 0 ≤ C ∧ C < (dim : Int)
  · obtain ⟨a, rfl⟩ : ∃ a : Nat, R = (a : Int) :=
      ⟨R.toNat, (Int.toNat_of_nonneg hin.1).symm⟩
    obtain ⟨b, rfl⟩ : ∃ b : Nat, C = (b : Int) :=
      ⟨C.toNat, (Int.toNat_of_nonneg hin.2.2.1).symm⟩
    rw [alive2d, if_pos hin]
    have ha : a < dim := by omega
    have hb : b < dim := by omega
    have hidx : ((a : Int) * dim + b).toNat = a * dim + b := by omega
    rw [hidx, blockGrid_getD dim r0 c0 a b ha hb, decide_eq_decide]
    omega
  · rw [alive2d_neg _ _ _ _ hin]
    symm
    rw [decide_eq_false_iff_not]
    omega

set_option maxHeartbeats 1000000 in
/-- On the isolated 2x2 block pattern, a cell counts exactly 3 alive
neighbors precisely when it belongs to the block. -/
theorem blockCount (dim r0 c0 : Nat) (h1 : 1 ≤ r0) (h2 : r0 + 3 ≤ dim)
    (h3 : 1 ≤ c0) (h4 : c0 + 3 ≤ dim) (q r : Nat) (hq : q < dim) (hr : r < dim) :
    (count_neighbors (blockGrid dim r0 c0) dim (dim * dim) (q * dim + r)).count true = 3
      ↔ (r0 ≤ q ∧ q ≤ r0 + 1 ∧ c0 ≤ r ∧ r ≤ c0 + 1) := by
  have hidx : q * dim + r < dim * dim := rowLt dim q r hq hr
  rw [count_neighbors_eq_spec (blockGrid dim r0 c0) dim (dim * dim)
    (q * dim + r) (by omega) rfl hidx]
  simp only [neighborSpec, rowDiv dim q r hr, rowMod dim q r hr,
    alive2d_blockGrid dim r0 c0 h1 h2 h3 h4, count8, toNat_decide]
  split_ifs <;> omega

/-- Every cell of the isolated 2x2 block pattern maps under one assessment
to its own current value: block cells count 3 neighbors and stay alive,
every other cell counts a number of alive neighbors different from 3 and
stays dead. -/
theorem assess_blockGrid (dim r0 c0 : Nat) (h1 : 1 ≤ r0) (h2 : r0 + 3 ≤ dim)
    (h3 : 1 ≤ c0) (h4 : c0 + 3 ≤ dim) (q r : Nat) (hq : q < dim) (hr : r < dim) :
    assess_neighbors (blockGrid dim r0 c0) dim (dim * dim) (q * dim + r)
      = decide (r0 ≤ q ∧ q ≤ r0 + 1 ∧ c0 ≤ r ∧ r ≤ c0 + 1) := by
  have hc3 := blockCount dim r0 c0 h1 h2 h3 h4 q r hq hr
  simp only [assess_neighbors, blockGrid_getD dim r0 c0 q r hq hr, decide_eq_true_eq]
  set c := (count_neighbors (blockGrid dim r0 c0) dim (dim * dim) (q * dim + r)).count true
    with hcdef
  by_cases hm : r0 ≤ q ∧ q ≤ r0 + 1 ∧ c0 ≤ r ∧ r ≤ c0 + 1
  · have h3c : c = 3 := hc3.mpr hm
    rw [if_neg (by omega), if_pos hm]
    simp [h3c, hm]
  · have hcn : c ≠ 3 := fun h => hm (hc3.mp h)
    by_cases h23 : c = 2
    · rw [if_neg (by omega), if_neg hm]
      simp [h23, hm]
    · rw [if_pos (by omega)]
      symm
      exact decide_eq_false_iff_not.mpr hm

theorem hBlinkerGrid_length (dim r0 c0 : Nat) :
    (hBlinkerGrid dim r0 c0).length = dim * dim := by
  simp [hBlinkerGrid]

theorem vBlinkerGrid_length (dim r0 c0 : Nat) :
    (vBlinkerGrid dim r0 c0).length = dim * dim := by
  simp [vBlinkerGrid]

theorem hBlinkerGrid_getD (dim r0 c0 a b : Nat) (ha : a < dim) (hb : b < dim) :
    (hBlinkerGrid dim r0 c0).getD (a * dim + b) false
      = decide (a = r0 ∧ c0 ≤ b ∧ b ≤ c0 + 2) := by
  rw [hBlinkerGrid, mapRange_getD _ _ _ (rowLt dim a b ha hb),
    rowDiv dim a b hb, rowMod dim a b hb]

theorem vBlinkerGrid_getD (dim r0 c0 a b : Nat) (ha : a < dim) (hb : b < dim) :
    (vBlinkerGrid dim r0 c0).getD (a * dim + b) false
      = decide (b = c0 + 1 ∧ r0 - 1 ≤ a ∧ a ≤ r0 + 1) := by
  rw [vBlinkerGrid, mapRange_getD _ _ _ (rowLt dim a b ha hb),
    rowDiv dim a b hb, rowMod dim a b hb]

theorem alive2d_hBlinker (dim r0 c0 : Nat) (h1 : 2 ≤ r0) (h2 : r0 + 3 ≤ dim)
    (h3 : 1 ≤ c0) (h4 : c0 + 4 ≤ dim) (R C : Int) :
    alive2d (hBlinkerGrid dim r0 c0) dim R C
      = decide (R = (r0 : Int) ∧ (c0 : Int) ≤ C ∧ C ≤ c0 + 2) := by
  by_cases hin : 0 ≤ R ∧ R < (dim : Int) ∧ 0 ≤ C ∧ C < (dim : Int)
  · obtain ⟨a, rfl⟩ : ∃ a : Nat, R = (a : Int) :=
      ⟨R.toNat, (Int.toNat_of_nonneg hin.1).symm⟩
    obtain ⟨b, rfl⟩ : ∃ b : Nat, C = (b : Int) :=
      ⟨C.toNat, (Int.toNat_of_nonneg hin.2.2.1).symm⟩
    rw [alive2d, if_pos hin]
    have ha : a < dim := by omega
    have hb : b < dim := by omega
    have hidx : ((a : Int) * dim + b).toNat = a * dim + b := by omega
    rw [hidx, hBlinkerGrid_getD dim r0 c0 a b ha hb, decide_eq_decide]
    omega
  · rw [alive2d_neg _ _ _ _ hin]
    symm
    rw [decide_eq_false_iff_not]
    omega

theorem alive2d_vBlinker (dim r0 c0 : Nat) (h1 : 2 ≤ r0) (h2 : r0 + 3 ≤ dim)
    (h3 : 1 ≤ c0) (h4 : c0 + 4 ≤ dim) (R C : Int) :
    alive2d (vBlinkerGrid dim r0 c0) dim R C
      = decide (C = (c0 : Int) + 1 ∧ (r0 : Int) - 1 ≤ R ∧ R ≤ r0 + 1) := by
  by_cases hin : 0 ≤ R ∧ R < (dim : Int) ∧ 0 ≤ C ∧ C < (dim : Int)
  · obtain ⟨a, rfl⟩ : ∃ a : Nat, R = (a : Int) :=
      ⟨R.toNat, (Int.toNat_of_nonneg hin.1).symm⟩
    obtain ⟨b, rfl⟩ : ∃ b : Nat, C = (b : Int) :=
      ⟨C.toNat, (Int.toNat_of_nonneg hin.2.2.1).symm⟩
    rw [alive2d, if_pos hin]
    have ha : a < dim := by omega
    have hb : b < dim := by omega
    have hidx : ((a : Int) * dim + b).toNat = a * dim + b := by omega
    rw [hidx, vBlinkerGrid_getD dim r0 c0 a b ha hb, decide_eq_decide]
    omega
  · rw [alive2d_neg _ _ _ _ hin]
    symm
    rw [decide_eq_false_iff_not]
    omega

set_option maxHeartbeats 1000000 in
/-- Neighbor-count characterization on the horizontal blinker: a cell counts
3 iff it is a vertical-phase cell outside the horizontal line, and a
horizontal-line cell counts 2 iff it is the shared center. -/
theorem hBlinkerCount (dim r0 c0 : Nat) (h1 : 2 ≤ r0) (h2 : r0 + 3 ≤ dim)
    (h3 : 1 ≤ c0) (h4 : c0 + 4 ≤ dim) (q r : Nat) (hq : q < dim) (hr : r < dim) :
    ((count_neighbors (hBlinkerGrid dim r0 c0) dim (dim * dim) (q * dim + r)).count true = 3
      ↔ ((r = c0 + 1 ∧ r0 - 1 ≤ q ∧ q ≤ r0 + 1) ∧ ¬(q = r0 ∧ c0 ≤ r ∧ r ≤ c0 + 2))) ∧
    ((q = r0 ∧ c0 ≤ r ∧ r ≤ c0 + 2) →
      ((count_neighbors (hBlinkerGrid dim r0 c0) dim (dim * dim) (q * dim + r)).count true = 2
        ↔ (r = c0 + 1 ∧ r0 - 1 ≤ q ∧ q ≤ r0 + 1))) := by
  have hidx : q * dim + r < dim * dim := rowLt dim q r hq hr
  rw [count_neighbors_eq_spec (hBlinkerGrid dim r0 c0) dim (dim * dim)
    (q * dim + r) (by omega) rfl hidx]
  simp only [neighborSpec, rowDiv dim q r hr, rowMod dim q r hr,
    alive2d_hBlinker dim r0 c0 h1 h2 h3 h4, count8, toNat_decide]
  split_ifs <;> omega

set_option maxHeartbeats 1000000 in
/-- Neighbor-count characterization on the vertical blinker phase. -/
theorem vBlinkerCount (dim r0 c0 : Nat) (h1 : 2 ≤ r0) (h2 : r0 + 3 ≤ dim)
    (h3 : 1 ≤ c0) (h4 : c0 + 4 ≤ dim) (q r : Nat) (hq : q < dim) (hr : r < dim) :
    ((count_neighbors (vBlinkerGrid dim r0 c0) dim (dim * dim) (q * dim + r)).count true = 3
      ↔ ((q = r0 ∧ c0 ≤ r ∧ r ≤ c0 + 2) ∧ ¬(r = c0 + 1 ∧ r0 - 1 ≤ q ∧ q ≤ r0 + 1))) ∧
    ((r = c0 + 1 ∧ r0 - 1 ≤ q ∧ q ≤ r0 + 1) →
      ((count_neighbors (vBlinkerGrid dim r0 c0) dim (dim * dim) (q * dim + r)).count true = 2
        ↔ (q = r0 ∧ c0 ≤ r ∧ r ≤ c0 + 2))) := by
  have hidx : q * dim + r < dim * dim := rowLt dim q r hq hr
  rw [count_neighbors_eq_spec (vBlinkerGrid dim r0 c0) dim (dim * dim)
    (q * dim + r) (by omega) rfl hidx]
  simp only [neighborSpec, rowDiv dim q r hr, rowMod dim q r hr,
    alive2d_vBlinker dim r0 c0 h1 h2 h3 h4, count8, toNat_decide]
  split_ifs <;> omega

/-- One assessment maps each cell of the horizontal blinker grid to the
corresponding cell of the vertical blinker grid. -/
theorem assess_hBlinker (dim r0 c0 : Nat) (h1 : 2 ≤ r0) (h2 : r0 + 3 ≤ dim)
    (h3 : 1 ≤ c0) (h4 : c0 + 4 ≤ dim) (q r : Nat) (hq : q < dim) (hr : r < dim) :
    assess_neighbors (hBlinkerGrid dim r0 c0) dim (dim * dim) (q * dim + r)
      = decide (r = c0 + 1 ∧ r0 - 1 ≤ q ∧ q ≤ r0 + 1) := by
  obtain ⟨F1, F2⟩ := hBlinkerCount dim r0 c0 h1 h2 h3 h4 q r hq hr
  simp only [assess_neighbors, hBlinkerGrid_getD dim r0 c0 q r hq hr, decide_eq_true_eq]
  set c := (count_neighbors (hBlinkerGrid dim r0 c0) dim (dim * dim) (q * dim + r)).count true
    with hcdef
  by_cases hM : q = r0 ∧ c0 ≤ r ∧ r ≤ c0 + 2
  · by_cases hV : r = c0 + 1 ∧ r0 - 1 ≤ q ∧ q ≤ r0 + 1
    · have h2c : c = 2 := (F2 hM).mpr hV
      rw [if_neg (by omega), if_pos hM, decide_eq_decide]
      omega
    · have hc2 : c ≠ 2 := fun h => hV ((F2 hM).mp h)
      have hc3 : c ≠ 3 := fun h => (F1.mp h).2 hM
      rw [if_pos (by omega)]
      symm
      exact decide_eq_false_iff_not.mpr hV
  · by_cases hV : r = c0 + 1 ∧ r0 - 1 ≤ q ∧ q ≤ r0 + 1
    · have h3c : c = 3 := F1.mpr ⟨hV, hM⟩
      rw [if_neg (by omega), if_neg hM, decide_eq_decide]
      omega
    · have hc3 : c ≠ 3 := fun h => hV (F1.mp h).1
      by_cases hc2 : c = 2
      · rw [if_neg (by omega), if_neg hM, decide_eq_decide]
        omega
      · rw [if_pos (by omega)]
        symm
        exact decide_eq_false_iff_not.mpr hV

/-- One assessment maps each cell of the vertical blinker grid back to the
corresponding cell of the horizontal blinker grid. -/
theorem assess_vBlinker (dim r0 c0 : Nat) (h1 : 2 ≤ r0) (h2 : r0 + 3 ≤ dim)
    (h3 : 1 ≤ c0) (h4 : c0 + 4 ≤ dim) (q r : Nat) (hq : q < dim) (hr : r < dim) :
    assess_neighbors (vBlinkerGrid dim r0 c0) dim (dim * dim) (q * dim + r)
      = decide (q = r0 ∧ c0 ≤ r ∧ r ≤ c0 + 2) := by
  obtain ⟨F1, F2⟩ := vBlinkerCount dim r0 c0 h1 h2 h3 h4 q r hq hr
  simp only [assess_neighbors, vBlinkerGrid_getD dim r0 c0 q r hq hr, decide_eq_true_eq]
  set c := (count_neighbors (vBlinkerGrid dim r0 c0) dim (dim * dim) (q * dim + r)).count true
    with hcdef
  by_cases hM : r = c0 + 1 ∧ r0 - 1 ≤ q ∧ q ≤ r0 + 1
  · by_cases hH : q = r0 ∧ c0 ≤ r ∧ r ≤ c0 + 2
    · have h2c : c = 2 := (F2 hM).mpr hH
      rw [if_neg (by omega), if_pos hM, decide_eq_decide]
      omega
    · have hc2 : c ≠ 2 := fun h => hH ((F2 hM).mp h)
      have hc3 : c ≠ 3 := fun h => (F1.mp h).2 hM
      rw [if_pos (by omega)]
      symm
      exact decide_eq_false_iff_not.mpr hH
  · by_cases hH : q = r0 ∧ c0 ≤ r ∧ r ≤ c0 + 2
    · have h3c : c = 3 := F1.mpr ⟨hH, hM⟩
      rw [if_neg (by omega), if_neg hM, decide_eq_decide]
      omega
    · have hc3 : c ≠ 3 := fun h => hH (F1.mp h).1
      by_cases hc2 : c = 2
      · rw [if_neg (by omega), if_neg hM, decide_eq_decide]
        omega
      · rw [if_pos (by omega)]
        symm
        exact decide_eq_false_iff_not.mpr hH

/-! ### Claim theorems -/

/-- C1: for every grid and every cell index `idx` in `[0, size)` of a
`dim x dim` grid, the neighbor count is at most 8 (it is a `Nat`, hence also
nonnegative), and the gathered neighborhood equals the 2-D specification
neighborhood `neighborSpec`, in which every position outside the grid
boundary reads as dead — no neighbor position ever wraps to the opposite
edge. -/
theorem neighborCount_le_eight_no_wrap (grid : List Bool) (dim size idx : Nat)
    (hdim : 1 ≤ dim) (hsize : size = dim * dim) (hidx : idx < size) :
    (count_neighbors grid dim size idx).count true ≤ 8 ∧
    count_neighbors grid dim size idx = neighborSpec grid dim idx := by
  have h := count_neighbors_eq_spec grid dim size idx hdim hsize hidx
  refine ⟨?_, h⟩
  rw [h]
  exact le_trans (List.count_le_length _ _) (by simp [neighborSpec])

/-- Witness for C1 at `dim = 2`, `size = 4`, `idx = 0` on an all-alive
grid. -/
theorem neighborCount_le_eight_no_wrap_witness :
    (count_neighbors [true, true, true, true] 2 4 0).count true ≤ 8 ∧
    count_neighbors [true, true, true, true] 2 4 0
      = neighborSpec [true, true, true, true] 2 0 :=
  neighborCount_le_eight_no_wrap [true, true, true, true] 2 4 0 (by decide)
    (by decide) (by decide)

/-- C2: `assess_neighbors` realizes exactly the specification's decision
table `nextStateSpec`: dead when the neighbor count is not in `{2,3}`;
alive when the cell is alive and the count is in `{2,3}`; alive when the
cell is dead and the count is exactly 3; dead in all other cases. -/
theorem assess_neighbors_rules (grid : List Bool) (dim size idx : Nat) :
    assess_neighbors grid dim size idx
      = nextStateSpec (grid.getD idx false)
          ((count_neighbors grid dim size idx).count true) := by
  unfold assess_neighbors nextStateSpec
  set c := (count_neighbors grid dim size idx).count true with hc
  by_cases h2 : c = 2 <;> by_cases h3 : c = 3 <;>
    cases hg : grid.getD idx false <;> simp [h2, h3, hg]

/-- C3: one sweep produces a buffer of the same length as the grid in which
every cell `i` is `assess_neighbors` of the pre-step grid at `i`; the
pre-step grid is passed unchanged to every assessment (the embedding is
pure, so no updated value can leak into the same step). -/
theorem sweep_same_size_pointwise (grid : List Bool) (dim size : Nat) :
    (sweep grid dim size).length = grid.length ∧
    ∀ i : Fin grid.length,
      (sweep grid dim size).getD i.val false = assess_neighbors grid dim size i.val := by
  constructor
  · simp [sweep]
  · intro i
    simp [sweep, List.getD_eq_getElem?_getD, List.getElem?_map, List.getElem?_range,
      i.isLt]

/-- C6: on the all-alive 3x3 grid, one sweep leaves exactly the four corner
cells alive; the center counts 8 alive neighbors, each edge-midpoint counts
5, each corner counts 3. -/
theorem full3x3_sweep_corners :
    sweep (List.replicate 9 true) 3 9
      = [true, false, true, false, false, false, true, false, true] ∧
    (count_neighbors (List.replicate 9 true) 3 9 4).count true = 8 ∧
    (count_neighbors (List.replicate 9 true) 3 9 1).count true = 5 ∧
    (count_neighbors (List.replicate 9 true) 3 9 3).count true = 5 ∧
    (count_neighbors (List.replicate 9 true) 3 9 5).count true = 5 ∧
    (count_neighbors (List.replicate 9 true) 3 9 7).count true = 5 ∧
    (count_neighbors (List.replicate 9 true) 3 9 0).count true = 3 ∧
    (count_neighbors (List.replicate 9 true) 3 9 2).count true = 3 ∧
    (count_neighbors (List.replicate 9 true) 3 9 6).count true = 3 ∧
    (count_neighbors (List.replicate 9 true) 3 9 8).count true = 3 := by
  decide

/-- C7: for every grid containing a 2x2 block of alive cells fully
surrounded by dead cells (all other cells dead, margins inside the grid),
one sweep returns the grid unchanged: the block is a fixed point of the
step. -/
theorem block_still_life (dim r0 c0 : Nat) (h1 : 1 ≤ r0) (h2 : r0 + 3 ≤ dim)
    (h3 : 1 ≤ c0) (h4 : c0 + 3 ≤ dim) :
    sweep (blockGrid dim r0 c0) dim (dim * dim) = blockGrid dim r0 c0 := by
  apply List.ext_getElem (sweep_length _ _ _)
  intro i hi1 hi2
  have hilt : i < dim * dim := by rw [blockGrid_length] at hi2; exact hi2
  obtain ⟨q, r, hr, rfl⟩ : ∃ q r, r < dim ∧ q * dim + r = i :=
    ⟨i / dim, i % dim, Nat.mod_lt _ (by omega),
      by rw [Nat.mul_comm]; exact Nat.div_add_mod i dim⟩
  have hq : q < dim := by
    by_contra hcon
    push_neg at hcon
    have := Nat.mul_le_mul_right dim hcon
    omega
  rw [← List.getD_eq_getElem (sweep (blockGrid dim r0 c0) dim (dim * dim)) false hi1,
    ← List.getD_eq_getElem (blockGrid dim r0 c0) false hi2]
  rw [sweep_getD _ _ _ _ (by rw [blockGrid_length]; exact hilt)]
  rw [assess_blockGrid dim r0 c0 h1 h2 h3 h4 q r hq hr,
    blockGrid_getD dim r0 c0 q r hq hr]

/-- Witness for C7: the 2x2 block at rows and columns 1-2 of a 4x4 grid. -/
theorem block_still_life_witness :
    sweep (blockGrid 4 1 1) 4 (4 * 4) = blockGrid 4 1 1 :=
  block_still_life 4 1 1 (by decide) (by decide) (by decide) (by decide)

/-- C8: a horizontal 3-cell blinker with dead margins turns into the
corresponding vertical 3-cell line after one sweep, turns back after a
second sweep, and hence two sweeps are the identity on the blinker grid. -/
theorem blinker_oscillates (dim r0 c0 : Nat) (h1 : 2 ≤ r0) (h2 : r0 + 3 ≤ dim)
    (h3 : 1 ≤ c0) (h4 : c0 + 4 ≤ dim) :
    sweep (hBlinkerGrid dim r0 c0) dim (dim * dim) = vBlinkerGrid dim r0 c0 ∧
    sweep (vBlinkerGrid dim r0 c0) dim (dim * dim) = hBlinkerGrid dim r0 c0 ∧
    sweep (sweep (hBlinkerGrid dim r0 c0) dim (dim * dim)) dim (dim * dim)
      = hBlinkerGrid dim r0 c0 := by
  have hs1 : sweep (hBlinkerGrid dim r0 c0) dim (dim * dim) = vBlinkerGrid dim r0 c0 := by
    apply List.ext_getElem
    · rw [sweep_length, hBlinkerGrid_length, vBlinkerGrid_length]
    intro i hi1 hi2
    have hilt : i < dim * dim := by rw [vBlinkerGrid_length] at hi2; exact hi2
    obtain ⟨q, r, hr, rfl⟩ : ∃ q r, r < dim ∧ q * dim + r = i :=
      ⟨i / dim, i % dim, Nat.mod_lt _ (by omega),
        by rw [Nat.mul_comm]; exact Nat.div_add_mod i dim⟩
    have hq : q < dim := by
      by_contra hcon
      push_neg at hcon
      have := Nat.mul_le_mul_right dim hcon
      omega
    rw [← List.getD_eq_getElem (sweep (hBlinkerGrid dim r0 c0) dim (dim * dim)) false hi1,
      ← List.getD_eq_getElem (vBlinkerGrid dim r0 c0) false hi2]
    rw [sweep_getD _ _ _ _ (by rw [hBlinkerGrid_length]; exact hilt)]
    rw [assess_hBlinker dim r0 c0 h1 h2 h3 h4 q r hq hr,
      vBlinkerGrid_getD dim r0 c0 q r hq hr]
  have hs2 : sweep (vBlinkerGrid dim r0 c0) dim (dim * dim) = hBlinkerGrid dim r0 c0 := by
    apply List.ext_getElem
    · rw [sweep_length, vBlinkerGrid_length, hBlinkerGrid_length]
    intro i hi1 hi2
    have hilt : i < dim * dim := by rw [hBlinkerGrid_length] at hi2; exact hi2
    obtain ⟨q, r, hr, rfl⟩ : ∃ q r, r < dim ∧ q * dim + r = i :=
      ⟨i / dim, i % dim, Nat.mod_lt _ (by omega),
        by rw [Nat.mul_comm]; exact Nat.div_add_mod i dim⟩
    have hq : q < dim := by
      by_contra hcon
      push_neg at hcon
      have := Nat.mul_le_mul_right dim hcon
      omega
    rw [← List.getD_eq_getElem (sweep (vBlinkerGrid dim r0 c0) dim (dim * dim)) false hi1,
      ← List.getD_eq_getElem (hBlinkerGrid dim r0 c0) false hi2]
    rw [sweep_getD _ _ _ _ (by rw [vBlinkerGrid_length]; exact hilt)]
    rw [assess_vBlinker dim r0 c0 h1 h2 h3 h4 q r hq hr,
      hBlinkerGrid_getD dim r0 c0 q r hq hr]
  exact ⟨hs1, hs2, by rw [hs1, hs2]⟩

/-- Witness for C8: the horizontal blinker in row 2, columns 1-3 of a 5x5
grid. -/
theorem blinker_oscillates_witness :
    sweep (hBlinkerGrid 5 2 1) 5 (5 * 5) = vBlinkerGrid 5 2 1 ∧
    sweep (vBlinkerGrid 5 2 1) 5 (5 * 5) = hBlinkerGrid 5 2 1 ∧
    sweep (sweep (hBlinkerGrid 5 2 1) 5 (5 * 5)) 5 (5 * 5) = hBlinkerGrid 5 2 1 :=
  blinker_oscillates 5 2 1 (by decide) (by decide) (by decide) (by decide)

theorem alive2d_congr (dim : Nat) (g g' : List Bool)
    (h : ∀ j, j < dim * dim → g.getD j false = g'.getD j false) (R C : Int) :
    alive2d g dim R C = alive2d g' dim R C := by
  by_cases hin : 0 ≤ R ∧ R < (dim : Int) ∧ 0 ≤ C ∧ C < (dim : Int)
  · obtain ⟨a, rfl⟩ : ∃ a : Nat, R = (a : Int) :=
      ⟨R.toNat, (Int.toNat_of_nonneg hin.1).symm⟩
    obtain ⟨b, rfl⟩ : ∃ b : Nat, C = (b : Int) :=
      ⟨C.toNat, (Int.toNat_of_nonneg hin.2.2.1).symm⟩
    rw [alive2d, alive2d, if_pos hin, if_pos hin]
    have hidx : ((a : Int) * dim + b).toNat = a * dim + b := by omega
    rw [hidx]
    exact h _ (rowLt dim a b (by omega) (by omega))
  · rw [alive2d_neg _ _ _ _ hin, alive2d_neg _ _ _ _ hin]

theorem neighborSpec_congr (dim idx : Nat) (g g' : List Bool)
    (h : ∀ j, j < dim * dim → g.getD j false = g'.getD j false) :
    neighborSpec g dim idx = neighborSpec g' dim idx := by
  simp only [neighborSpec, alive2d_congr dim g g' h]

theorem mem_ite_nil {P : Prop} [Decidable P] (l : List Nat) (j : Nat) :
    (j ∈ if P then ([] : List Nat) else l) ↔ ¬P ∧ j ∈ l := by
  split_ifs with h <;> simp [h]

/-- Every run of `playLoop` started at `gens ≤ limit` terminates with
`limit + 1 - gens` further renders, a final counter of `limit + 1`, the
end-of-run message, and exit status 0. -/
theorem playLoop_formula : ∀ (k : Nat) (grid : List Bool) (dim size limit gens renders : Nat),
    limit - gens = k → gens ≤ limit →
    playLoop grid dim size limit gens renders
      = { renders := renders + (limit + 1 - gens), finalGens := limit + 1,
          endMessage := true, exitCode := 0 } := by
  intro k
  induction k with
  | zero =>
    intro grid dim size limit gens renders hk hle
    rw [playLoop, if_pos (by omega)]
    simp only [PlayResult.mk.injEq, and_true]
    omega
  | succ k ih =>
    intro grid dim size limit gens renders hk hle
    rw [playLoop, if_neg (by omega)]
    rw [ih (sweep grid dim size) dim size limit (gens + 1) (renders + 1)
      (by omega) (by omega)]
    simp only [PlayResult.mk.injEq, and_true]
    omega

set_option linter.unusedVariables false in
/-- C9: with a positive iteration limit `N` the driver loop terminates:
the generation counter starts at 0 and increments once after each render,
the loop exits as soon as the counter exceeds `N` (so `N + 1` frames —
generations 0 through `N` — are rendered), the end-of-run message is
emitted, and the process exits with success status 0. -/
theorem play_terminates (grid : List Bool) (dim size limit : Nat)
    (hpos : 1 ≤ limit) :
    play grid dim size limit
      = { renders := limit + 1, finalGens := limit + 1,
          endMessage := true, exitCode := 0 } := by
  rw [play, playLoop_formula limit grid dim size limit 0 0 (by omega) (by omega)]
  simp only [PlayResult.mk.injEq, and_true]
  omega

/-- Witness for C9: limit 1 on a 1-cell grid renders generations 0 and 1. -/
theorem play_terminates_witness :
    play [true] 1 1 1
      = { renders := 2, finalGens := 2, endMessage := true, exitCode := 0 } :=
  play_terminates [true] 1 1 1 (by decide)

/-- C10: on a perfect-square grid every flat index `count_neighbors` reads
lies in `[0, size)`, and consequently `count_neighbors` only depends on the
grid values at positions below `size`: the out-of-bounds branch of the
total-function embedding (`List.getD` defaulting to dead) is unreachable. -/
theorem count_neighbors_reads_in_bounds (dim size idx : Nat) (hdim : 1 ≤ dim)
    (hsize : size = dim * dim) (hidx : idx < size) :
    (∀ j ∈ neighborReads dim size idx, j < size) ∧
    (∀ grid grid' : List Bool,
      (∀ j, j < size → grid.getD j false = grid'.getD j false) →
      count_neighbors grid dim size idx = count_neighbors grid' dim size idx) := by
  subst hsize
  obtain ⟨q, r, hr, rfl⟩ : ∃ q r, r < dim ∧ q * dim + r = idx :=
    ⟨idx / dim, idx % dim, Nat.mod_lt _ (by omega),
      by rw [Nat.mul_comm]; exact Nat.div_add_mod idx dim⟩
  have hq : q < dim := by
    by_contra hcon
    push_neg at hcon
    have := Nat.mul_le_mul_right dim hcon
    omega
  have hsucc1 : (q + 1) * dim = q * dim + dim := Nat.succ_mul q dim
  have hsucc2 : (q + 2) * dim = q * dim + dim + dim := by
    rw [Nat.succ_mul, Nat.succ_mul]
  have hup1 : (q + 1) * dim ≤ dim * dim := Nat.mul_le_mul_right dim (by omega)
  constructor
  · intro j hj
    simp only [neighborReads, List.mem_append, mem_ite_nil, List.mem_singleton] at hj
    rcases hj with ((⟨hA0, (⟨hA1, rfl⟩ | rfl) | ⟨hA3, rfl⟩⟩ | ⟨hB, rfl⟩) | ⟨hC, rfl⟩)
      | ⟨hD0, (⟨hD1, rfl⟩ | rfl) | ⟨hD3, rfl⟩⟩
    · omega
    · omega
    · omega
    · omega
    · by_cases hrd : r + 1 = dim
      · exfalso
        have e : q * dim + r + 1 = (q + 1) * dim := by omega
        rw [e, Nat.mul_mod_left] at hC
        exact hC rfl
      · omega
    · have hq2 : q + 2 ≤ dim := by
        by_contra hcon
        push_neg at hcon
        have := Nat.mul_le_mul_right dim (show dim ≤ q + 1 by omega)
        omega
      have hup2 : (q + 2) * dim ≤ dim * dim := Nat.mul_le_mul_right dim hq2
      omega
    · have hq2 : q + 2 ≤ dim := by
        by_contra hcon
        push_neg at hcon
        have := Nat.mul_le_mul_right dim (show dim ≤ q + 1 by omega)
        omega
      have hup2 : (q + 2) * dim ≤ dim * dim := Nat.mul_le_mul_right dim hq2
      omega
    · have hq2 : q + 2 ≤ dim := by
        by_contra hcon
        push_neg at hcon
        have := Nat.mul_le_mul_right dim (show dim ≤ q + 1 by omega)
        omega
      have hup2 : (q + 2) * dim ≤ dim * dim := Nat.mul_le_mul_right dim hq2
      by_cases hrd : r + 1 = dim
      · exfalso
        have e : q * dim + r + dim + 1 = (q + 2) * dim := by omega
        rw [e, Nat.mul_mod_left] at hD3
        exact hD3 rfl
      · omega
  · intro g g' h
    rw [count_neighbors_eq_spec g dim (dim * dim) (q * dim + r) (by omega) rfl (by omega),
      count_neighbors_eq_spec g' dim (dim * dim) (q * dim + r) (by omega) rfl (by omega)]
    exact neighborSpec_congr dim (q * dim + r) g g' h

/-- Witness for C10 at `dim = 2`, `size = 4`, `idx = 3`. -/
theorem count_neighbors_reads_in_bounds_witness :
    (∀ j ∈ neighborReads 2 4 3, j < 4) ∧
    (∀ grid grid' : List Bool,
      (∀ j, j < 4 → grid.getD j false = grid'.getD j false) →
      count_neighbors grid 2 4 3 = count_neighbors grid' 2 4 3) :=
  count_neighbors_reads_in_bounds 2 4 3 (by decide) (by decide) (by decide)

/-- C4 (code bug evidence): in word-seed mode with byte source
`"abcd"` (bytes 97, 98, 99, 100) and `size = 4`, the grid built by
`initialize` has 8 cells, not 4 — the 4 parity cells are followed by 4
cells taken from the random source, so the result depends on the random
draws: the missing early return after `initialize_by_gods_word` lets
execution fall through into the random pass. -/
theorem godMode_grid_has_random_tail :
    (initGrid true [97, 98, 99, 100] (fun _ => false) 4).length = 8 ∧
    initGrid true [97, 98, 99, 100] (fun _ => false) 4
      ≠ initGrid true [97, 98, 99, 100] (fun _ => true) 4 ∧
    initGrid true [97, 98, 99, 100] (fun _ => false) 4
      = [true, false, true, false, false, false, false, false] := by
  have he : extendWords [97, 98, 99, 100] 4 = [97, 98, 99, 100] := by
    rw [extendWords]
    simp
  have hg : gods_word_cells [97, 98, 99, 100] 4 = [true, false, true, false] := by
    simp only [gods_word_cells, he]
    rfl
  simp only [initGrid, if_true, hg]
  decide

/-- C5 (code bug evidence): for `size = 10` (no integer square root) the
`__main__` flow writes the warning and then runs the simulation anyway —
the configuration is reported but not rejected. -/
theorem sizeTen_warned_but_simulated :
    mainCheck 10 = { warned := true, simulated := true } := by
  have h : Nat.sqrt 10 = 3 := by
    symm
    rw [Nat.eq_sqrt]
    norm_num
  simp [mainCheck, h]

end Life
